import Mathlib

/-!
Verification development for the `classroomWebGolang` repository: a minimal
HTTP service with two routes, `POST /person` and `GET /person`, backed by a
relational store through a thin repository. The development embeds:

* the `Record` entity (`internal/record/model.go`) with the external random
  generators (`uuid.New`, `faker`, `gofakeit`, `rand.Int`) abstracted into an
  explicit generator value;
* JSON values as an abstract syntax tree, the canonical UUID text form, and
  the decode/validate helpers of `pkg/request` (`Decode`, `IsValid`,
  `HandleBody`);
* the response writer `response.Json` and `http.Error` as write calls against
  a model of Go's `http.ResponseWriter` (first `WriteHeader` wins, later
  header mutation has no effect, body chunks concatenate);
* the repository (`internal/record/repository.go`) over a store state whose
  primitive `Create`/`Find` operations follow the spec's contract for the
  external database client;
* the two handlers of `internal/record/handler.go`, including their exact
  control flow: the error branches do not return, so the success write always
  executes.
-/

/-- JSON values, as the abstract syntax tree produced or consumed by the
external `encoding/json` package. Numbers are modelled as integers, which is
all the `Record` shape uses. -/
inductive Json where
  | null : Json
  | str (s : String) : Json
  | num (n : Int) : Json
  | bool (b : Bool) : Json
  | arr (elems : List Json) : Json
  | obj (fields : List (String × Json)) : Json

/-- Lower-case hex digit for a value below 16, as used by the canonical UUID
text encoding of `github.com/google/uuid`. -/
def hexDigitChar (n : Nat) : Char :=
  if n < 10 then Char.ofNat (48 + n) else Char.ofNat (87 + n)

/-- `hexPad n w` renders `n % 16 ^ w` as exactly `w` lower-case hex digits,
most significant first (zero padded). -/
def hexPad : Nat → Nat → List Char
  | _, 0 => []
  | n, w + 1 => hexPad (n / 16) w ++ [hexDigitChar (n % 16)]

/-- Canonical 8-4-4-4-12 UUID character sequence of a 128-bit value, as
produced by `uuid.UUID.String()`. -/
def uuidChars (u : Nat) : List Char :=
  hexPad (u / 2 ^ 96) 8 ++ '-' ::
    (hexPad (u / 2 ^ 80) 4 ++ '-' ::
      (hexPad (u / 2 ^ 64) 4 ++ '-' ::
        (hexPad (u / 2 ^ 48) 4 ++ '-' :: hexPad u 12)))

/-- Canonical UUID string of a 128-bit value. -/
def uuidString (u : Nat) : String :=
  String.mk (uuidChars u)

/-- Numeric value of a lower-case hex digit character, `none` otherwise. -/
def hexVal (c : Char) : Option Nat :=
  if 48 ≤ c.toNat ∧ c.toNat ≤ 57 then some (c.toNat - 48)
  else if 97 ≤ c.toNat ∧ c.toNat ≤ 102 then some (c.toNat - 87)
  else none

/-- Consume exactly `w` hex digits from the front of `cs`, accumulating their
value into `acc`; fails on a non-digit or when the input is too short. -/
def readHex : Nat → List Char → Nat → Option (Nat × List Char)
  | 0, cs, acc => some (acc, cs)
  | _ + 1, [], _ => none
  | w + 1, c :: cs, acc =>
    match hexVal c with
    | some d => readHex w cs (acc * 16 + d)
    | none => none

/-- Consume one dash. -/
def expectDash : List Char → Option (List Char)
  | '-' :: cs => some cs
  | _ => none

/-- Parse the canonical 8-4-4-4-12 UUID text form back into its 128-bit
value, as `uuid.Parse` does for the lower-case canonical encoding. -/
def uuidParse (s : String) : Option Nat := do
  let (a, r) ← readHex 8 s.data 0
  let r ← expectDash r
  let (b, r) ← readHex 4 r 0
  let r ← expectDash r
  let (c, r) ← readHex 4 r 0
  let r ← expectDash r
  let (d, r) ← readHex 4 r 0
  let r ← expectDash r
  let (e, r) ← readHex 12 r 0
  match r with
  | [] => some ((((a * 2 ^ 16 + b) * 2 ^ 16 + c) * 2 ^ 16 + d) * 2 ^ 48 + e)
  | _ => none

/-- The `Record` entity of `internal/record/model.go`. The `id` field embeds
`uuid.UUID` (16 bytes) as its 128-bit value. The embedded `*gorm.Model`
pointer is nil throughout this program and contributes no behavior or JSON
fields, so it is omitted. -/
structure Record where
  id : Nat
  name : String
  age : Int
  address : String
  phoneNumber : String
deriving DecidableEq

/-- One draw of the external random sources used by `NewRecord`:
`uuid.New()` (16 random bytes), `faker.Name()`, `rand.Int()` (a non-negative
int), `gofakeit.Address().Address` and `gofakeit.Phone()`. -/
structure Gen where
  uuidVal : Nat
  fakeName : String
  randAge : Nat
  fakeAddress : String
  fakePhone : String
deriving DecidableEq

/-- `NewRecord` from `internal/record/model.go`: assigns the id from the
uuid source (a 128-bit value) and fills the other fields from the fake-data
generators. -/
def NewRecord (g : Gen) : Record :=
  { id := g.uuidVal % 2 ^ 128
    name := g.fakeName
    age := (g.randAge : Int)
    address := g.fakeAddress
    phoneNumber := g.fakePhone }

/-- Escape a character for a JSON string literal (quote and backslash; the
model leaves other characters unescaped). -/
def escapeChar (c : Char) : List Char :=
  if c = '"' ∨ c = '\\' then ['\\', c] else [c]

/-- Escape a character sequence for a JSON string literal. -/
def escapeChars (cs : List Char) : List Char :=
  (cs.map escapeChar).flatten

/-- Render a JSON string literal, as `encoding/json` does for a Go string. -/
def renderString (s : String) : String :=
  "\"" ++ String.mk (escapeChars s.data) ++ "\""

/-- JSON text of one `Record`, in Go struct-field order, as `encoding/json`
marshals it (`uuid.UUID` marshals as its canonical quoted string; the nil
embedded `*gorm.Model` contributes no fields). -/
def renderRecord (r : Record) : String :=
  "\x7b\"ID\":" ++ renderString (uuidString r.id) ++
    ",\"Name\":" ++ renderString r.name ++
    ",\"Age\":" ++ toString r.age ++
    ",\"Address\":" ++ renderString r.address ++
    ",\"PhoneNumber\":" ++ renderString r.phoneNumber ++ "\x7d"

/-- JSON text of a `*Record`: a nil pointer marshals as `null`. -/
def renderRecordPtr : Option Record → String
  | none => "null"
  | some r => renderRecord r

/-- JSON text of a `[]Record` slice: the nil slice (the zero value the
repository returns on error, and, in this model, the zero-row result)
marshals as `null`; a populated slice as an array. -/
def renderRecords : List Record → String
  | [] => "null"
  | rs => "[" ++ String.intercalate "," (rs.map renderRecord) ++ "]"

/-- One write call against Go's `http.ResponseWriter`: the content type the
caller set just before writing, the status passed to `WriteHeader`, and the
body chunk written. -/
structure WriteCall where
  contentType : String
  status : Nat
  chunk : String
deriving DecidableEq

/-- `http.Error(w, msg, status)`: sets `Content-Type: text/plain;
charset=utf-8`, writes the status, then the message followed by a newline. -/
def http.Error (msg : String) (status : Nat) : WriteCall :=
  { contentType := "text/plain; charset=utf-8", status := status, chunk := msg ++ "\n" }

/-- `response.Json(w, data, status)` from `pkg/response/response.go`: sets
`Content-Type: application/json`, writes the status, then the JSON encoding
of the data; `json.Encoder.Encode` appends a newline. The `data` argument is
passed here already rendered to JSON text. -/
def response.Json (data : String) (status : Nat) : WriteCall :=
  { contentType := "application/json", status := status, chunk := data ++ "\n" }

/-- The response on the wire. -/
structure HttpResponse where
  contentType : String
  status : Nat
  body : String
deriving DecidableEq

/-- Fold a sequence of write calls with Go's `http.ResponseWriter`
semantics: the first `WriteHeader` fixes the status, header mutation after
it has no effect (so the first call's content type is the one sent), and all
body chunks are concatenated. `none` when nothing was written. -/
def commit : List WriteCall → Option HttpResponse
  | [] => none
  | w :: ws =>
    some { contentType := w.contentType
           status := w.status
           body := String.join ((w :: ws).map WriteCall.chunk) }

/-- Modelled from the spec: state of the external relational store. `rows`
is the sequence of persisted rows; `createErr` (resp. `findErr`), when set,
makes the next insert (resp. query) fail with that persistence error, which
models the unreachable-database and constraint-violation failures. -/
structure DbState where
  rows : List Record
  createErr : Option String
  findErr : Option String
deriving DecidableEq

/-- Modelled from the spec: the external database client's insert
(`gorm.DB.Create`): on success exactly one row is appended; on failure the
error is reported and the store is unchanged. -/
def dbCreate (s : DbState) (r : Record) : DbState × Option String :=
  match s.createErr with
  | some e => (s, some e)
  | none => ({ s with rows := s.rows ++ [r] }, none)

/-- Modelled from the spec: the external database client's query
(`gorm.DB.Find`): returns all persisted rows in storage order, never
modifying the store; on failure the error is reported. -/
def dbFind (s : DbState) : DbState × Except String (List Record) :=
  match s.findErr with
  | some e => (s, Except.error e)
  | none => (s, Except.ok s.rows)

/-- `RecordRepository.CreateRecord` from `internal/record/repository.go`:
runs the database insert; on error returns `(nil, err)`, otherwise returns
the very record it was given together with a nil error. -/
def RecordRepository.CreateRecord (s : DbState) (record : Record) :
    DbState × Except String Record :=
  let res := dbCreate s record
  match res.2 with
  | some e => (res.1, Except.error e)
  | none => (res.1, Except.ok record)

/-- `RecordRepository.GetRecords` from `internal/record/repository.go`: runs
the database query; on error returns `(nil, err)`, otherwise the queried
rows with a nil error. -/
def RecordRepository.GetRecords (s : DbState) :
    DbState × Except String (List Record) :=
  let res := dbFind s
  match res.2 with
  | Except.error e => (res.1, Except.error e)
  | Except.ok records => (res.1, Except.ok records)

/-- `RecordHandler.CreateRecord` from `internal/record/handler.go`, for
`POST /person`. The request body is received but never read: the record is
built by `NewRecord` from the random sources. If the repository reports an
error the handler calls `http.Error(w, err.Error(), 500)` but does not
return, so `response.Json(w, createRecord, 201)` runs unconditionally
afterwards — with `createRecord` nil in the error case. -/
def RecordHandler.CreateRecord (gen : Gen) (s : DbState) (reqBody : Json) :
    DbState × List WriteCall :=
  let _ := reqBody
  let record := NewRecord gen
  let res := RecordRepository.CreateRecord s record
  let errWrites : List WriteCall :=
    match res.2 with
    | Except.error e => [http.Error e 500]
    | Except.ok _ => []
  let createRecord : Option Record :=
    match res.2 with
    | Except.error _ => none
    | Except.ok r => some r
  (res.1, errWrites ++ [response.Json (renderRecordPtr createRecord) 201])

/-- `RecordHandler.GetRecords` from `internal/record/handler.go`, for
`GET /person`. If the repository reports an error the handler calls
`http.Error(w, err.Error(), 500)` but does not return, so
`response.Json(w, records, 200)` runs unconditionally afterwards — with
`records` the nil slice in the error case. -/
def RecordHandler.GetRecords (s : DbState) (reqBody : Json) :
    DbState × List WriteCall :=
  let _ := reqBody
  let res := RecordRepository.GetRecords s
  let errWrites : List WriteCall :=
    match res.2 with
    | Except.error e => [http.Error e 500]
    | Except.ok _ => []
  let records : List Record :=
    match res.2 with
    | Except.error _ => []
    | Except.ok rs => rs
  (res.1, errWrites ++ [response.Json (renderRecords records) 200])

/-- First field of the given name in a JSON object, as the struct binder of
`encoding/json` matches keys (the model restricts matching to the exact
field name and to the first occurrence). -/
def getField (fields : List (String × Json)) (name : String) : Option Json :=
  match fields with
  | [] => none
  | (k, v) :: rest => if k = name then some v else getField rest name

/-- Bind a JSON field into `uuid.UUID`: absent fields keep the zero value,
a string is parsed by the uuid text parser, anything else is a shape
mismatch, as `encoding/json` handles a `TextUnmarshaler` field. -/
def decodeUuidField : Option Json → Except String Nat
  | none => Except.ok 0
  | some (Json.str s) =>
    match uuidParse s with
    | some u => Except.ok u
    | none => Except.error "invalid UUID format"
  | some _ => Except.error "json: cannot unmarshal value into field of type uuid.UUID"

/-- Bind a JSON field into a Go string: absent fields keep the zero value,
non-strings are a shape mismatch. -/
def decodeStringField : Option Json → Except String String
  | none => Except.ok ""
  | some (Json.str s) => Except.ok s
  | some _ => Except.error "json: cannot unmarshal value into field of type string"

/-- Bind a JSON field into a Go int: absent fields keep the zero value,
non-numbers are a shape mismatch. -/
def decodeIntField : Option Json → Except String Int
  | none => Except.ok 0
  | some (Json.num n) => Except.ok n
  | some _ => Except.error "json: cannot unmarshal value into field of type int"

/-- `Decode[Record]` from `pkg/request/decode.go` at the binding layer of the
external `encoding/json` package: a JSON object binds field by field into
the `Record` shape; any other JSON value is a shape mismatch. -/
def recordFromJson : Json → Except String Record
  | Json.obj fields => do
    let id ← decodeUuidField (getField fields "ID")
    let name ← decodeStringField (getField fields "Name")
    let age ← decodeIntField (getField fields "Age")
    let address ← decodeStringField (getField fields "Address")
    let phoneNumber ← decodeStringField (getField fields "PhoneNumber")
    Except.ok { id := id, name := name, age := age, address := address, phoneNumber := phoneNumber }
  | _ => Except.error "json: cannot unmarshal value into Go value of type record.Record"

/-- The JSON serialization of a `Record` value, at the same abstract syntax
layer, matching the rendered text of `renderRecord`. -/
def recordToJson (r : Record) : Json :=
  Json.obj [("ID", Json.str (uuidString r.id)), ("Name", Json.str r.name),
    ("Age", Json.num r.age), ("Address", Json.str r.address),
    ("PhoneNumber", Json.str r.phoneNumber)]

/-- `IsValid[Record]` from `pkg/request/validate.go`: it calls the external
`validator.New().Struct` on the payload, and the `Record` struct declares no
`validate` field tags, so the validator finds no constraint to check and
always returns a nil error. -/
def IsValid (payload : Record) : Option String :=
  let _ := payload
  none

/-- `HandleBody[T]` from `pkg/request/handle.go`, parametric in the payload
shape exactly as the Go generic is: it is instantiated with the decode and
validate stages for `T`. On a decode error it writes one 400 response whose
body is the JSON-encoded error text and returns `(nil, err)` without running
validation; on a validation error it does the same; on success it returns
the payload with no write. -/
def HandleBody {α : Type} (decode : Json → Except String α)
    (isValid : α → Option String) (body : Json) :
    List WriteCall × Except String α :=
  match decode body with
  | Except.error e => ([response.Json (renderString e) 400], Except.error e)
  | Except.ok payload =>
    match isValid payload with
    | some e => ([response.Json (renderString e) 400], Except.error e)
    | none => ([], Except.ok payload)

/-- A fixed draw of the random sources, used as concrete input. -/
def genBob : Gen :=
  { uuidVal := 0, fakeName := "Bob", randAge := 7,
    fakeAddress := "9 Oak Ave", fakePhone := "555-0199" }

/-- A store state whose next insert fails: the persistence layer is
unreachable for `create`. -/
def storeCreateFail : DbState :=
  { rows := [], createErr := some "connection refused", findErr := none }

/-- A store state whose next query fails: the persistence layer is
unreachable for `list`. -/
def storeFindFail : DbState :=
  { rows := [], createErr := none, findErr := some "connection refused" }

/-- An empty, healthy store state. -/
def storeOk : DbState :=
  { rows := [], createErr := none, findErr := none }

/-- The request body of the spec's end-to-end `POST /person` example. -/
def aliceBody : Json :=
  Json.obj [("name", Json.str "Alice"), ("age", Json.num 30),
    ("address", Json.str "1 Main St"), ("phoneNumber", Json.str "555-0100")]

/-- `leadsWith needle hay` is true when `needle` is an initial segment of
`hay`. -/
def leadsWith : List Char → List Char → Bool
  | [], _ => true
  | _ :: _, [] => false
  | c :: cs, d :: ds => c == d && leadsWith cs ds

/-- `hasSub needle hay` is true when `needle` occurs contiguously anywhere
in `hay`. -/
def hasSub (needle : List Char) : List Char → Bool
  | [] => leadsWith needle []
  | c :: cs => leadsWith needle (c :: cs) || hasSub needle cs

/- Except values over decidable components compare decidably; used by the
concrete witnesses below. -/
deriving instance DecidableEq for Except

theorem hexPad_length (w : Nat) : ∀ n : Nat, (hexPad n w).length = w := by
  induction w with
  | zero => intro n; rfl
  | succ w ih => intro n; simp [hexPad, ih]

theorem uuidChars_length (u : Nat) : (uuidChars u).length = 36 := by
  simp [uuidChars, hexPad_length]

theorem uuidString_length (u : Nat) : (uuidString u).length = 36 :=
  uuidChars_length u

theorem hexPad_succ_cons (w : Nat) :
    ∀ n : Nat, hexPad n (w + 1) = hexDigitChar (n / 16 ^ w % 16) :: hexPad n w := by
  induction w with
  | zero => intro n; simp [hexPad]
  | succ w ih =>
    intro n
    calc hexPad n (w + 1 + 1)
        = hexPad (n / 16) (w + 1) ++ [hexDigitChar (n % 16)] := rfl
      _ = (hexDigitChar (n / 16 / 16 ^ w % 16) :: hexPad (n / 16) w)
            ++ [hexDigitChar (n % 16)] := by rw [ih]
      _ = hexDigitChar (n / 16 ^ (w + 1) % 16)
            :: (hexPad (n / 16) w ++ [hexDigitChar (n % 16)]) := by
            rw [Nat.div_div_eq_div_mul, ← pow_succ']
            rfl
      _ = hexDigitChar (n / 16 ^ (w + 1) % 16) :: hexPad n (w + 1) := rfl

theorem hexVal_hexDigitChar (n : Nat) (h : n < 16) :
    hexVal (hexDigitChar n) = some n := by
  interval_cases n <;> rfl

theorem mod_pow_split (n w : Nat) :
    n % 16 ^ (w + 1) = n / 16 ^ w % 16 * 16 ^ w + n % 16 ^ w := by
  have h1 : n % (16 ^ w * 16) / 16 ^ w = n / 16 ^ w % 16 :=
    Nat.mod_mul_right_div_self n (16 ^ w) 16
  have h2 : n % (16 ^ w * 16) % 16 ^ w = n % 16 ^ w :=
    Nat.mod_mod_of_dvd n ⟨16, rfl⟩
  calc n % 16 ^ (w + 1)
      = n % (16 ^ w * 16) := by rw [pow_succ]
    _ = 16 ^ w * (n % (16 ^ w * 16) / 16 ^ w) + n % (16 ^ w * 16) % 16 ^ w :=
        (Nat.div_add_mod _ _).symm
    _ = n / 16 ^ w % 16 * 16 ^ w + n % 16 ^ w := by rw [h1, h2, Nat.mul_comm]

theorem readHex_hexPad (w : Nat) :
    ∀ (n acc : Nat) (rest : List Char),
      readHex w (hexPad n w ++ rest) acc =
        some (acc * 16 ^ w + n % 16 ^ w, rest) := by
  induction w with
  | zero => intro n acc rest; simp [hexPad, readHex, Nat.mod_one]
  | succ w ih =>
    intro n acc rest
    rw [hexPad_succ_cons, List.cons_append]
    have hv := hexVal_hexDigitChar (n / 16 ^ w % 16) (Nat.mod_lt _ (by norm_num))
    simp only [readHex, hv, ih]
    congr 1
    rw [mod_pow_split]
    ring_nf

theorem readHex_hexPad_nil (w n acc : Nat) :
    readHex w (hexPad n w) acc = some (acc * 16 ^ w + n % 16 ^ w, []) := by
  rw [← List.append_nil (hexPad n w)]
  exact readHex_hexPad w n acc []

theorem uuidParse_uuidString (u : Nat) :
    uuidParse (uuidString u) = some (u % 2 ^ 128) := by
  simp only [uuidParse, uuidString, uuidChars, bind, Option.bind, readHex_hexPad,
    readHex_hexPad_nil, expectDash]
  norm_num
  omega

theorem recordFromJson_recordToJson (P : Record) (h : P.id < 2 ^ 128) :
    recordFromJson (recordToJson P) = Except.ok P := by
  have e : (2 : Nat) ^ 128 = 340282366920938463463374607431768211456 := by norm_num
  have h2 : P.id % 340282366920938463463374607431768211456 = P.id :=
    Nat.mod_eq_of_lt (e ▸ h)
  simp [recordFromJson, recordToJson, getField, decodeUuidField, decodeStringField,
    decodeIntField, uuidParse_uuidString, h2, bind, Except.bind]

theorem getRecords_preserves_state (s : DbState) :
    (RecordRepository.GetRecords s).1 = s := by
  cases hf : s.findErr <;> simp [RecordRepository.GetRecords, dbFind, hf]

/-- C1: on `POST /person` with the persistence layer unreachable, the
handler does write status 500 with the error text, but — contrary to the
claim and to the spec's required control flow — it also executes the 201
success write, because the error branch does not return: the write sequence
ends with `response.Json` at status 201, and the committed body is the error
text with `null` appended rather than the error description alone. -/
theorem createRecord_error_branch_also_runs_success_write :
    (RecordHandler.CreateRecord genBob storeCreateFail aliceBody).2 =
      [http.Error "connection refused" 500, response.Json "null" 201]
    ∧ commit (RecordHandler.CreateRecord genBob storeCreateFail aliceBody).2 =
        some { contentType := "text/plain; charset=utf-8", status := 500,
               body := "connection refused\nnull\n" } := by
  exact ⟨rfl, by decide⟩

/-- C2 fails on the code: the `POST /person` handler never reads the request
body; for the spec's example body the created and returned record carries
the fake-data values (here the name is `Bob`), and neither the submitted
name `Alice` nor the submitted phone number occurs anywhere in the response
body. -/
theorem createRecord_ignores_submitted_body :
    (RecordHandler.CreateRecord genBob storeOk aliceBody).2 =
      [response.Json (renderRecord (NewRecord genBob)) 201]
    ∧ (NewRecord genBob).name = "Bob"
    ∧ hasSub ("Alice".data) ((renderRecord (NewRecord genBob)).data) = false
    ∧ hasSub ("555-0100".data) ((renderRecord (NewRecord genBob)).data) = false := by
  refine ⟨rfl, rfl, by decide, by decide⟩

/-- C2 amended: when persistence succeeds, `POST /person` writes a single
201 response whose JSON body is the generated record, with a non-empty
(36-character) generated id; the submitted request body is ignored — the
handler's result is the same for every request body — so the four submitted
field values are not echoed. -/
theorem createRecord_success_writes_generated_record
    (gen : Gen) (s : DbState) (body other : Json) (h : s.createErr = none) :
    RecordHandler.CreateRecord gen s body = RecordHandler.CreateRecord gen s other
    ∧ (RecordHandler.CreateRecord gen s body).2 =
        [response.Json (renderRecord (NewRecord gen)) 201]
    ∧ commit (RecordHandler.CreateRecord gen s body).2 =
        some { contentType := "application/json", status := 201,
               body := renderRecord (NewRecord gen) ++ "\n" }
    ∧ (uuidString (NewRecord gen).id).length = 36 := by
  refine ⟨rfl, ?_, ?_, uuidString_length _⟩
  · simp [RecordHandler.CreateRecord, RecordRepository.CreateRecord, dbCreate, h,
      renderRecordPtr]
  · simp [RecordHandler.CreateRecord, RecordRepository.CreateRecord, dbCreate, h,
      renderRecordPtr, commit, response.Json, String.join]

/-- C2 amended, at a concrete generator, store state and request bodies. -/
theorem createRecord_success_writes_generated_record_witness :
    RecordHandler.CreateRecord genBob storeOk aliceBody =
        RecordHandler.CreateRecord genBob storeOk Json.null
    ∧ (RecordHandler.CreateRecord genBob storeOk aliceBody).2 =
        [response.Json (renderRecord (NewRecord genBob)) 201]
    ∧ commit (RecordHandler.CreateRecord genBob storeOk aliceBody).2 =
        some { contentType := "application/json", status := 201,
               body := renderRecord (NewRecord genBob) ++ "\n" }
    ∧ (uuidString (NewRecord genBob).id).length = 36 :=
  createRecord_success_writes_generated_record genBob storeOk aliceBody Json.null rfl

/-- C3: for every request body on which the decode stage fails, `HandleBody`
writes exactly one 400 response carrying the decode error's textual
description (JSON-encoded, as the source passes `err.Error()` to
`response.Json`), returns no payload together with a non-nil error, and
never runs the validation stage: its result is the same for every validation
function. -/
theorem handleBody_decode_failure {α : Type} (decode : Json → Except String α)
    (isValid isValid2 : α → Option String) (body : Json) (e : String)
    (h : decode body = Except.error e) :
    HandleBody decode isValid body =
      ([response.Json (renderString e) 400], Except.error e)
    ∧ HandleBody decode isValid body = HandleBody decode isValid2 body := by
  unfold HandleBody
  rw [h]
  exact ⟨rfl, rfl⟩

/-- C3 at a concrete malformed body (a JSON string where the `Record` object
shape is expected) and two concrete validation functions. -/
theorem handleBody_decode_failure_witness :
    HandleBody recordFromJson IsValid (Json.str "oops") =
      ([response.Json
          (renderString "json: cannot unmarshal value into Go value of type record.Record") 400],
        Except.error "json: cannot unmarshal value into Go value of type record.Record")
    ∧ HandleBody recordFromJson IsValid (Json.str "oops") =
        HandleBody recordFromJson (fun r => some r.name) (Json.str "oops") :=
  handleBody_decode_failure recordFromJson IsValid (fun r => some r.name)
    (Json.str "oops")
    "json: cannot unmarshal value into Go value of type record.Record" rfl

/-- C4: the repository's create returns exactly the pair of the given entity
and a nil error when the database insert succeeds, and `(nil, err)` with the
underlying persistence error when it fails; these are the only outcomes. -/
theorem repo_createRecord_outcomes (s : DbState) (rec : Record) :
    ((RecordRepository.CreateRecord s rec).2 = Except.ok rec
      ∨ ∃ e, (RecordRepository.CreateRecord s rec).2 = Except.error e
          ∧ s.createErr = some e)
    ∧ (s.createErr = none →
        RecordRepository.CreateRecord s rec =
          ({ s with rows := s.rows ++ [rec] }, Except.ok rec))
    ∧ ∀ e, s.createErr = some e →
        RecordRepository.CreateRecord s rec = (s, Except.error e) := by
  cases hc : s.createErr with
  | none =>
    refine ⟨Or.inl ?_, fun _ => ?_, fun e he => Option.noConfusion he⟩
    · simp [RecordRepository.CreateRecord, dbCreate, hc]
    · simp [RecordRepository.CreateRecord, dbCreate, hc]
  | some e0 =>
    refine ⟨Or.inr ⟨e0, ?_, rfl⟩, fun hn => Option.noConfusion hn, fun e he => ?_⟩
    · simp [RecordRepository.CreateRecord, dbCreate, hc]
    · injection he with h2
      subst h2
      simp [RecordRepository.CreateRecord, dbCreate, hc]

/-- C4 at a concrete entity, once against a healthy store and once against
an unreachable one. -/
theorem repo_createRecord_outcomes_witness :
    RecordRepository.CreateRecord storeOk (NewRecord genBob) =
      ({ storeOk with rows := storeOk.rows ++ [NewRecord genBob] },
        Except.ok (NewRecord genBob))
    ∧ RecordRepository.CreateRecord storeCreateFail (NewRecord genBob) =
        (storeCreateFail, Except.error "connection refused") :=
  ⟨(repo_createRecord_outcomes storeOk (NewRecord genBob)).2.1 rfl,
    (repo_createRecord_outcomes storeCreateFail (NewRecord genBob)).2.2
      "connection refused" rfl⟩

/-- C5: for every valid value of the `Record` shape (the id being a 128-bit
uuid value), decoding the JSON serialization and then validating succeeds —
both stages return a nil error — and yields a value structurally equal to
the original. -/
theorem decode_then_validate_roundtrip (P : Record) (h : P.id < 2 ^ 128) :
    recordFromJson (recordToJson P) = Except.ok P ∧ IsValid P = none :=
  ⟨recordFromJson_recordToJson P h, rfl⟩

/-- C5 at a concrete payload. -/
theorem decode_then_validate_roundtrip_witness :
    (NewRecord genBob).id < 2 ^ 128
    ∧ (recordFromJson (recordToJson (NewRecord genBob)) =
          Except.ok (NewRecord genBob)
        ∧ IsValid (NewRecord genBob) = none) :=
  ⟨by decide, decode_then_validate_roundtrip (NewRecord genBob) (by decide)⟩

/-- C6: the id is assigned once, by the constructor, before persistence, and
the create operation never changes it: on success create returns the very
record it was given — any record it reports carries the constructor's id —
and the row it appended to storage is that same record. -/
theorem record_id_immutable_through_create (gen : Gen) (s : DbState)
    (h : s.createErr = none) :
    (RecordRepository.CreateRecord s (NewRecord gen)).2 =
      Except.ok (NewRecord gen)
    ∧ (∀ r2, (RecordRepository.CreateRecord s (NewRecord gen)).2 = Except.ok r2 →
        r2.id = (NewRecord gen).id)
    ∧ (RecordRepository.CreateRecord s (NewRecord gen)).1.rows =
        s.rows ++ [NewRecord gen] := by
  refine ⟨?_, ?_, ?_⟩
  · simp [RecordRepository.CreateRecord, dbCreate, h]
  · intro r2 h2
    simp [RecordRepository.CreateRecord, dbCreate, h] at h2
    rw [← h2]
  · simp [RecordRepository.CreateRecord, dbCreate, h]

/-- C6 at a concrete generator and store state. -/
theorem record_id_immutable_through_create_witness :
    (RecordRepository.CreateRecord storeOk (NewRecord genBob)).2 =
      Except.ok (NewRecord genBob)
    ∧ (∀ r2, (RecordRepository.CreateRecord storeOk (NewRecord genBob)).2 =
          Except.ok r2 → r2.id = (NewRecord genBob).id)
    ∧ (RecordRepository.CreateRecord storeOk (NewRecord genBob)).1.rows =
        storeOk.rows ++ [NewRecord genBob] :=
  record_id_immutable_through_create genBob storeOk rfl

/-- C7: the list operation has no side effect on the persisted state — after
any number of `GetRecords` calls the store is exactly as before — and every
successful create call inserts exactly one row. -/
theorem list_pure_create_inserts_one (s : DbState) (rec : Record) :
    (∀ n : Nat, (fun st => (RecordRepository.GetRecords st).1)^[n] s = s)
    ∧ (s.createErr = none →
        (RecordRepository.CreateRecord s rec).1.rows = s.rows ++ [rec]
        ∧ (RecordRepository.CreateRecord s rec).1.rows.length
            = s.rows.length + 1) := by
  constructor
  · intro n
    exact Function.iterate_fixed (getRecords_preserves_state s) n
  · intro h
    constructor
    · simp [RecordRepository.CreateRecord, dbCreate, h]
    · simp [RecordRepository.CreateRecord, dbCreate, h]

/-- C7 at a concrete store state and record: three list calls leave the
store unchanged, one successful create appends exactly one row. -/
theorem list_pure_create_inserts_one_witness :
    (fun st => (RecordRepository.GetRecords st).1)^[3] storeOk = storeOk
    ∧ ((RecordRepository.CreateRecord storeOk (NewRecord genBob)).1.rows =
          storeOk.rows ++ [NewRecord genBob]
        ∧ (RecordRepository.CreateRecord storeOk (NewRecord genBob)).1.rows.length
            = storeOk.rows.length + 1) :=
  ⟨(list_pure_create_inserts_one storeOk (NewRecord genBob)).1 3,
    (list_pure_create_inserts_one storeOk (NewRecord genBob)).2 rfl⟩

/-- C8: calling list twice with no intervening create returns the same
collection both times — the two results are equal outright, which in
particular gives set-equality of their elements. -/
theorem list_twice_same_result (s : DbState) :
    (RecordRepository.GetRecords ((RecordRepository.GetRecords s).1)).2 =
      (RecordRepository.GetRecords s).2 := by
  rw [getRecords_preserves_state]

/-- C9 fails on the code: a persistence-failure response is written through
`http.Error`, which sets `text/plain; charset=utf-8`, so not every response
carries `application/json`. -/
theorem persistence_error_response_not_json :
    Option.map HttpResponse.contentType
        (commit (RecordHandler.GetRecords storeFindFail aliceBody).2) =
      some "text/plain; charset=utf-8"
    ∧ "text/plain; charset=utf-8" ≠ "application/json" := by
  exact ⟨rfl, by decide⟩

/-- C9 amended: responses written on the success path of both endpoints
carry `application/json`; responses on a persistence failure are started by
`http.Error` and carry `text/plain; charset=utf-8` instead. -/
theorem response_content_types (gen : Gen) (s : DbState) (body : Json) :
    (s.createErr = none →
      Option.map HttpResponse.contentType
          (commit (RecordHandler.CreateRecord gen s body).2) =
        some "application/json")
    ∧ (s.findErr = none →
      Option.map HttpResponse.contentType
          (commit (RecordHandler.GetRecords s body).2) =
        some "application/json")
    ∧ (∀ e, s.createErr = some e →
      Option.map HttpResponse.contentType
          (commit (RecordHandler.CreateRecord gen s body).2) =
        some "text/plain; charset=utf-8")
    ∧ (∀ e, s.findErr = some e →
      Option.map HttpResponse.contentType
          (commit (RecordHandler.GetRecords s body).2) =
        some "text/plain; charset=utf-8") := by
  refine ⟨fun h => ?_, fun h => ?_, fun e he => ?_, fun e he => ?_⟩ <;>
    simp_all [RecordHandler.CreateRecord, RecordHandler.GetRecords,
      RecordRepository.CreateRecord, RecordRepository.GetRecords, dbCreate, dbFind,
      commit, response.Json, http.Error]

/-- C9 amended, at concrete inputs covering all four branches. -/
theorem response_content_types_witness :
    Option.map HttpResponse.contentType
        (commit (RecordHandler.CreateRecord genBob storeOk aliceBody).2) =
      some "application/json"
    ∧ Option.map HttpResponse.contentType
        (commit (RecordHandler.GetRecords storeOk aliceBody).2) =
      some "application/json"
    ∧ Option.map HttpResponse.contentType
        (commit (RecordHandler.CreateRecord genBob storeCreateFail aliceBody).2) =
      some "text/plain; charset=utf-8"
    ∧ Option.map HttpResponse.contentType
        (commit (RecordHandler.GetRecords storeFindFail aliceBody).2) =
      some "text/plain; charset=utf-8" :=
  ⟨(response_content_types genBob storeOk aliceBody).1 rfl,
    (response_content_types genBob storeOk aliceBody).2.1 rfl,
    (response_content_types genBob storeCreateFail aliceBody).2.2.1
      "connection refused" rfl,
    (response_content_types genBob storeFindFail aliceBody).2.2.2
      "connection refused" rfl⟩
